import Mathlib

/-!
Shallow embedding of the attention-detection watcher (src/watcher.js) of the
blooop CLI.  Input chunks are modelled as lists of character codes (`List Nat`);
`Option (List Nat)` models a possibly `undefined`/`null` JavaScript argument.
The detection state machine is modelled as a step function over an explicit
state record, with the caller's `onTrigger` callback recorded as a trace of
fired reasons, and the single outstanding `setTimeout` timer modelled as an
optional handle carrying a fresh id and its scheduled delay; a timer-fire event
only acts when its id matches the currently pending handle (a cleared timer
never runs, exactly as `clearTimeout` guarantees).
-/

namespace Blooop

/-! ## Input normalizer (stripAnsi, isMeaningfulUserInput, isSubmission) -/

/-- Character class `[@-Z\\-_]` of `ANSI_ESCAPE_RE`: the single-character
escape forms following ESC. -/
def isAnsiSingle (c : Nat) : Bool :=
  (0x40 ≤ c && c ≤ 0x5a) || (0x5c ≤ c && c ≤ 0x5f)

/-- CSI parameter bytes `[0-?]`. -/
def isParamByte (c : Nat) : Bool := 0x30 ≤ c && c ≤ 0x3f

/-- CSI intermediate bytes, codes 0x20 to 0x2f. -/
def isInterByte (c : Nat) : Bool := 0x20 ≤ c && c ≤ 0x2f

/-- CSI final bytes `[@-~]`. -/
def isFinalByte (c : Nat) : Bool := 0x40 ≤ c && c ≤ 0x7e

/-- Attempt to match a CSI tail (parameter bytes, then intermediate bytes, then one final byte) at the
start of `l` (the characters after ESC and open bracket).  Returns the remainder after the
final byte on success.  The three byte classes are pairwise disjoint, so the
greedy JavaScript regex is deterministic and this function is exact. -/
def csiMatch (l : List Nat) : Option (List Nat) :=
  match (l.dropWhile isParamByte).dropWhile isInterByte with
  | c :: rest => if isFinalByte c then some rest else none
  | [] => none

/-- Worker for `stripAnsi`, mirroring a left-to-right global-regex replace of
`ANSI_ESCAPE_RE` with the empty string: at each ESC try the single-character
alternative, then the CSI alternative; on failure keep the ESC and rescan from
the next character.  `fuel` only bounds recursion; every call consumes at
least one list element, so `fuel = l.length` never runs out. -/
def stripAnsiGo : Nat → List Nat → List Nat
  | 0, l => l
  | fuel + 1, l =>
    match l with
    | [] => []
    | 27 :: c :: rest2 =>
      if isAnsiSingle c then stripAnsiGo fuel rest2
      else if c == 91 then
        match csiMatch rest2 with
        | some rem => stripAnsiGo fuel rem
        | none => 27 :: stripAnsiGo fuel (c :: rest2)
      else 27 :: stripAnsiGo fuel (c :: rest2)
    | c :: rest => c :: stripAnsiGo fuel rest

/-- `stripAnsi`: remove every match of `ANSI_ESCAPE_RE` (ESC then either a
single character 0x40..0x5a or 0x5c..0x5f, or a full CSI sequence). -/
def stripAnsi (l : List Nat) : List Nat := stripAnsiGo l.length l

/-- Remove every match of `FOCUS_EVENT_RE = /\x1b\[(?:I|O)/g`
(ESC `[` `I` = 27,91,73 and ESC `[` `O` = 27,91,79). -/
def stripFocus : List Nat → List Nat
  | 27 :: 91 :: 73 :: rest => stripFocus rest
  | 27 :: 91 :: 79 :: rest => stripFocus rest
  | c :: rest => c :: stripFocus rest
  | [] => []

/-- Character class `[\x00-\x09\x0b\x0c\x0e-\x1f\x7f]`: the control bytes
removed after escape stripping (CR 13 and LF 10 are preserved). -/
def isStrippedControl (c : Nat) : Bool :=
  c ≤ 0x09 || c == 0x0b || c == 0x0c || (0x0e ≤ c && c ≤ 0x1f) || c == 0x7f

/-- `isMeaningfulUserInput(data)`: `undefined`/`null` is meaningful by
convention; otherwise strip focus events, then ANSI escapes, then the
remaining control bytes, and report whether anything is left. -/
def isMeaningfulUserInput : Option (List Nat) → Bool
  | none => true
  | some text =>
    if text.length = 0 then false
    else
      decide (0 < ((stripAnsi (stripFocus text)).filter
        (fun c => !(isStrippedControl c))).length)

/-- `isSubmission(data)`: the raw text contains a carriage return (13) or a
line feed (10).  `String(undefined)` is the text `undefined`, which contains
neither, hence `none` is not a submission. -/
def isSubmission : Option (List Nat) → Bool
  | none => false
  | some text => text.contains 13 || text.contains 10

/-! ## Prompt patterns -/

/-- A pattern, modelling one regex tested with `pattern.test(cleanData)`. -/
abbrev Pat := List Nat → Bool

/-- ASCII lower-casing, the canonicalisation a non-unicode case-insensitive
JavaScript regex performs on its ASCII-literal patterns. -/
def toLowerCode (c : Nat) : Nat := if 65 ≤ c ∧ c ≤ 90 then c + 32 else c

/-- Does `hay` start with `needle`? -/
def subHere : List Nat → List Nat → Bool
  | [], _ => true
  | _ :: _, [] => false
  | n :: ns, h :: hs => n == h && subHere ns hs

/-- Does `hay` contain `needle` as a contiguous substring? -/
def containsSub (needle : List Nat) : List Nat → Bool
  | [] => subHere needle []
  | h :: hs => subHere needle (h :: hs) || containsSub needle hs

/-- Case-insensitive containment of the (lower-case ASCII) literal `needle`. -/
def containsCI (needle : List Nat) (hay : List Nat) : Bool :=
  containsSub needle (hay.map toLowerCode)

/-- Default `PROMPT_PATTERNS`: case-insensitive literal tests.  The code lists
are the character codes of the literals
(y/n) | yes/no | press enter | do you want | proceed? | confirm. -/
def PROMPT_PATTERNS : List Pat :=
  [ containsCI [40, 121, 47, 110, 41],
    containsCI [121, 101, 115, 47, 110, 111],
    containsCI [112, 114, 101, 115, 115, 32, 101, 110, 116, 101, 114],
    containsCI [100, 111, 32, 121, 111, 117, 32, 119, 97, 110, 116],
    containsCI [112, 114, 111, 99, 101, 101, 100, 63],
    containsCI [99, 111, 110, 102, 105, 114, 109] ]

/-- JavaScript line terminators (LF, CR, LS, PS), where a multiline caret and
dollar anchor. -/
def isLineTerm (c : Nat) : Bool := c == 10 || c == 13 || c == 0x2028 || c == 0x2029

/-- The JavaScript regex whitespace class backslash-s. -/
def isJsSpace (c : Nat) : Bool :=
  c == 0x20 || c == 0x09 || c == 0x0a || c == 0x0b || c == 0x0c || c == 0x0d ||
  c == 0xa0 || c == 0x1680 || (0x2000 ≤ c && c ≤ 0x200a) ||
  c == 0x2028 || c == 0x2029 || c == 0x202f || c == 0x205f ||
  c == 0x3000 || c == 0xfeff

/-- Match the rest of a glyph line: whitespace then end-of-line (end of input
or a line terminator).  Used after the mandatory first whitespace character. -/
def wsEol : List Nat → Bool
  | [] => true
  | c :: rest => isLineTerm c || (isJsSpace c && wsEol rest)

/-- After the prompt glyph: at least one whitespace character, then
end-of-line. -/
def glyphThenWs : List Nat → Bool
  | [] => false
  | c :: rest => isJsSpace c && wsEol rest

/-- Try the glyph-line pattern at one line start: optional whitespace, then
the glyph `>` (62) or the single right-pointing angle quotation mark (0x203a),
then whitespace, then end-of-line. -/
def glyphLineAt (l : List Nat) : Bool :=
  match l.dropWhile isJsSpace with
  | [] => false
  | c :: rest => (c == 62 || c == 0x203a) && glyphThenWs rest

/-- All suffixes of `l` that begin immediately after a line terminator. -/
def lineStartTails : List Nat → List (List Nat)
  | [] => []
  | c :: rest => (if isLineTerm c then [rest] else []) ++ lineStartTails rest

/-- The first `CLAUDE_IDLE_PATTERNS` regex: a line consisting of optional
whitespace, a prompt glyph and trailing whitespace (multiline anchors). -/
def claudeGlyphLine (l : List Nat) : Bool :=
  glyphLineAt l || (lineStartTails l).any glyphLineAt

/-- `CLAUDE_IDLE_PATTERNS`: the glyph-line pattern and the case-sensitive
literal `? for shortcuts` (codes 63,32,102,111,114,32,115,104,111,114,116,
99,117,116,115). -/
def CLAUDE_IDLE_PATTERNS : List Pat :=
  [ fun clean => claudeGlyphLine clean,
    fun clean => containsSub
      [63, 32, 102, 111, 114, 32, 115, 104, 111, 114, 116, 99, 117, 116, 115]
      clean ]

/-! ## Configuration resolution performed by `watch` -/

/-- A JavaScript numeric option value: absent (`undefined`, also standing for
any non-number, which `Number.isFinite` likewise rejects), `NaN`, the two
infinities, or a finite number (modelled as an integer). -/
inductive JsNum
  | undef
  | nan
  | inf
  | negInf
  | fin (v : Int)
deriving DecidableEq

/-- `DEFAULT_IDLE_MS = 4000`. -/
def DEFAULT_IDLE_MS : Int := 4000

/-- `Number.isFinite(options.idleMs) ? options.idleMs : DEFAULT_IDLE_MS`. -/
def resolveIdleMs : JsNum → Int
  | .fin v => v
  | _ => DEFAULT_IDLE_MS

/-- `Array.isArray(options.promptPatterns) && options.promptPatterns.length > 0
? options.promptPatterns : PROMPT_PATTERNS` (a non-array value is modelled as
`none`). -/
def resolvePromptPatterns : Option (List Pat) → List Pat
  | some ps => if 0 < ps.length then ps else PROMPT_PATTERNS
  | none => PROMPT_PATTERNS

/-- The options object accepted by `watch`. -/
structure Options where
  idleMs : JsNum := .undef
  enableIdle : Option Bool := none
  promptPatterns : Option (List Pat) := none

/-- The resolved per-watcher configuration. -/
structure Config where
  idleMs : Int
  enableIdle : Bool
  promptPatterns : List Pat

/-- The configuration resolution at the top of `watch`
(`options.enableIdle !== false` enables the silence timer). -/
def watchConfig (o : Options) : Config :=
  { idleMs := resolveIdleMs o.idleMs,
    enableIdle := !(o.enableIdle == some false),
    promptPatterns := resolvePromptPatterns o.promptPatterns }

/-! ## Detection state machine -/

/-- The `STATE` enumeration. -/
inductive Phase
  | idle
  | prompt
  | notified
deriving DecidableEq

/-- A trigger reason. -/
inductive Reason
  | idle
  | prompt
deriving DecidableEq

/-- A scheduled timer handle: a fresh identifier and the delay passed to
`setTimeout`. -/
structure TimerH where
  id : Nat
  delay : Int
deriving DecidableEq

/-- The mutable closure state of one watcher.  `fired` is the trace of
arguments passed to the caller's `onTrigger` callback, oldest first. -/
structure WState where
  state : Phase
  idleTimer : Option TimerH
  nextTimer : Nat
  hadOutput : Bool
  userHasInteracted : Bool
  awaitingResponse : Bool
  stopped : Bool
  fired : List Reason
deriving DecidableEq

/-- The state right after `watch` installs its handlers. -/
def initState : WState :=
  { state := .idle, idleTimer := none, nextTimer := 0, hadOutput := false,
    userHasInteracted := false, awaitingResponse := false, stopped := false,
    fired := [] }

/-- `clearIdleTimer()`. -/
def clearIdleTimer (s : WState) : WState := { s with idleTimer := none }

/-- `trigger(reason)`: guarded by `stopped` and the `NOTIFIED` idempotence
check; clears `awaitingResponse`, invokes the callback (recorded in `fired`)
and lands in `NOTIFIED`.  The transient `PROMPT` phase set just before the
callback collapses into `NOTIFIED` immediately after it. -/
def trigger (r : Reason) (s : WState) : WState :=
  if s.stopped = true ∨ s.state = Phase.notified then s
  else
    { s with awaitingResponse := false, state := Phase.notified,
             fired := s.fired ++ [r] }

/-- `resetIdle()`: cancel any pending timer and schedule a fresh one with
delay `idleMs`.  The guards inside the timeout callback are evaluated at fire
time, in `onTimerFire`. -/
def resetIdle (cfg : Config) (s : WState) : WState :=
  { s with idleTimer := some ⟨s.nextTimer, cfg.idleMs⟩,
           nextTimer := s.nextTimer + 1 }

/-- The trailing conditional of the `pty.onData` handler: re-arm the silence
timer only while idle, with the silence trigger enabled, after a submission. -/
def maybeResetIdle (cfg : Config) (s : WState) : WState :=
  if s.state = Phase.idle ∧ cfg.enableIdle = true ∧ s.awaitingResponse = true
  then resetIdle cfg s else s

/-- The `pty.onData` handler. -/
def onData (cfg : Config) (s : WState) (data : List Nat) : WState :=
  if s.stopped = true then s
  else
    let s1 : WState := { s with hadOutput := true }
    if s1.state = Phase.idle ∧ s1.userHasInteracted = true then
      let clean := stripAnsi data
      if s1.awaitingResponse = true ∧
          CLAUDE_IDLE_PATTERNS.any (fun p => p clean) = true then
        trigger Reason.idle (clearIdleTimer s1)
      else if cfg.promptPatterns.any (fun p => p clean) = true then
        trigger Reason.prompt (clearIdleTimer s1)
      else maybeResetIdle cfg s1
    else maybeResetIdle cfg s1

/-- `onUserInput(data)`: returns the new state and the boolean result. -/
def onUserInput (s : WState) (d : Option (List Nat)) : WState × Bool :=
  if s.stopped = true then (s, false)
  else if isMeaningfulUserInput d = false then (s, false)
  else
    ({ s with userHasInteracted := true, state := Phase.idle,
              hadOutput := false, idleTimer := none,
              awaitingResponse := isSubmission d }, true)

/-- The body of the `setTimeout` callback, delivered as an external event
carrying the id of the timer that fires.  A cleared or superseded timer never
runs (`clearTimeout`), hence the id guard; the stale handle is left in place
exactly as the code leaves `idleTimer` set after a fire. -/
def onTimerFire (s : WState) (id : Nat) : WState :=
  match s.idleTimer with
  | some t =>
    if t.id = id then
      if s.stopped = true ∨ ¬ s.state = Phase.idle then s
      else if s.hadOutput = false ∨ s.userHasInteracted = false ∨
          s.awaitingResponse = false then s
      else trigger Reason.idle s
    else s
  | none => s

/-- `stop()`. -/
def stopW (s : WState) : WState :=
  if s.stopped = true then s
  else { s with stopped := true, idleTimer := none }

/-- The external events a watcher processes. -/
inductive Event
  | output (data : List Nat)
  | userInput (data : Option (List Nat))
  | timerFire (id : Nat)
  | stop

/-- One serialized event step. -/
def step (cfg : Config) (s : WState) : Event → WState
  | .output d => onData cfg s d
  | .userInput d => (onUserInput s d).1
  | .timerFire id => onTimerFire s id
  | .stop => stopW s

/-- Run a sequence of events from a given state. -/
def runFrom (cfg : Config) (s : WState) (es : List Event) : WState :=
  es.foldl (step cfg) s

/-- Run a sequence of events from the initial state. -/
def run (cfg : Config) (es : List Event) : WState := runFrom cfg initState es

/-- Does an event carry a meaningful user input (the only re-arming events)? -/
def isMeaningfulInputEvent : Event → Bool
  | .userInput d => isMeaningfulUserInput d
  | _ => false

/-! ## Helper lemmas -/

theorem step_stopped (cfg : Config) (s : WState) (e : Event)
    (h : s.stopped = true) : step cfg s e = s := by
  cases e with
  | output d => simp [step, onData, h]
  | userInput d => simp [step, onUserInput, h]
  | timerFire id =>
    simp only [step, onTimerFire]
    cases ht : s.idleTimer with
    | none => rfl
    | some t => simp [h]
  | stop => simp [step, stopW, h]

theorem runFrom_stopped (cfg : Config) (s : WState) (es : List Event)
    (h : s.stopped = true) : runFrom cfg s es = s := by
  induction es with
  | nil => rfl
  | cons e es ih =>
    show runFrom cfg (step cfg s e) es = s
    rw [step_stopped cfg s e h]
    exact ih

theorem maybeResetIdle_eq (cfg : Config) (s : WState) :
    maybeResetIdle cfg s = s ∨ maybeResetIdle cfg s = resetIdle cfg s := by
  unfold maybeResetIdle
  split
  · exact Or.inr rfl
  · exact Or.inl rfl

theorem maybeResetIdle_fields (cfg : Config) (s : WState) :
    (maybeResetIdle cfg s).fired = s.fired ∧
    (maybeResetIdle cfg s).state = s.state ∧
    (maybeResetIdle cfg s).awaitingResponse = s.awaitingResponse ∧
    (maybeResetIdle cfg s).userHasInteracted = s.userHasInteracted ∧
    (maybeResetIdle cfg s).stopped = s.stopped ∧
    (maybeResetIdle cfg s).hadOutput = s.hadOutput := by
  rcases maybeResetIdle_eq cfg s with h | h <;> rw [h] <;> simp [resetIdle]

theorem trigger_not_fire (r : Reason) (s : WState)
    (h : s.stopped = true ∨ s.state = Phase.notified) : trigger r s = s := by
  simp [trigger, h]

theorem trigger_fire (r : Reason) (s : WState)
    (h1 : s.stopped = false) (h2 : ¬ s.state = Phase.notified) :
    trigger r s =
      { s with awaitingResponse := false, state := Phase.notified,
               fired := s.fired ++ [r] } := by
  simp [trigger, h1, h2]

theorem trigger_cases (r : Reason) (s : WState) :
    trigger r s = s ∨
    trigger r s =
      { s with awaitingResponse := false, state := Phase.notified,
               fired := s.fired ++ [r] } := by
  unfold trigger
  split
  · exact Or.inl rfl
  · exact Or.inr rfl

/-- Any single step either leaves the callback trace unchanged, or appends one
reason and lands in `NOTIFIED`. -/
theorem step_fired_cases (cfg : Config) (s : WState) (e : Event) :
    (step cfg s e).fired = s.fired ∨
    (∃ r, (step cfg s e).fired = s.fired ++ [r] ∧
      (step cfg s e).state = Phase.notified) := by
  cases e with
  | output d =>
    simp only [step, onData]
    split
    · exact Or.inl rfl
    · split
      · split
        · rcases trigger_cases Reason.idle
            (clearIdleTimer { s with hadOutput := true }) with h | h <;>
            rw [h] <;> simp [clearIdleTimer]
        · split
          · rcases trigger_cases Reason.prompt
              (clearIdleTimer { s with hadOutput := true }) with h | h <;>
              rw [h] <;> simp [clearIdleTimer]
          · exact Or.inl (maybeResetIdle_fields cfg _).1
      · exact Or.inl (maybeResetIdle_fields cfg _).1
  | userInput d =>
    simp only [step, onUserInput]
    split
    · exact Or.inl rfl
    · split
      · exact Or.inl rfl
      · exact Or.inl rfl
  | timerFire id =>
    simp only [step, onTimerFire]
    cases ht : s.idleTimer with
    | none => exact Or.inl rfl
    | some t =>
      simp only []
      split
      · split
        · exact Or.inl rfl
        · split
          · exact Or.inl rfl
          · rcases trigger_cases Reason.idle s with h | h <;> rw [h]
            · exact Or.inl rfl
            · exact Or.inr ⟨Reason.idle, rfl, rfl⟩
      · exact Or.inl rfl
  | stop =>
    simp only [step, stopW]
    split
    · exact Or.inl rfl
    · exact Or.inl rfl

/-- From `NOTIFIED`, any event that is not a meaningful user input leaves the
trace unchanged and the phase in `NOTIFIED`. -/
theorem step_notified (cfg : Config) (s : WState) (e : Event)
    (hm : isMeaningfulInputEvent e = false) (hs : s.state = Phase.notified) :
    (step cfg s e).fired = s.fired ∧ (step cfg s e).state = Phase.notified := by
  cases e with
  | output d =>
    simp only [step, onData]
    split
    · exact ⟨rfl, hs⟩
    · split
      · rename_i hcond
        rw [show ({ s with hadOutput := true } : WState).state = s.state from rfl, hs]
          at hcond
        exact absurd hcond.1 (by decide)
      · refine ⟨(maybeResetIdle_fields cfg _).1, ?_⟩
        rw [(maybeResetIdle_fields cfg _).2.1]
        exact hs
  | userInput d =>
    simp only [isMeaningfulInputEvent] at hm
    simp only [step, onUserInput]
    split
    · exact ⟨rfl, hs⟩
    · exact ⟨rfl, hs⟩
  | timerFire id =>
    simp only [step, onTimerFire]
    cases ht : s.idleTimer with
    | none => exact ⟨rfl, hs⟩
    | some t =>
      simp only []
      split
      · rw [if_pos (Or.inr (by rw [hs]; decide))]
        exact ⟨rfl, hs⟩
      · exact ⟨rfl, hs⟩
  | stop =>
    simp only [step, stopW]
    split
    · exact ⟨rfl, hs⟩
    · exact ⟨rfl, hs⟩

/-- From `NOTIFIED`, a whole segment without meaningful user input leaves the
trace unchanged. -/
theorem runFrom_notified (cfg : Config) (s : WState) (es : List Event)
    (hm : ∀ e ∈ es, isMeaningfulInputEvent e = false)
    (hs : s.state = Phase.notified) :
    (runFrom cfg s es).fired = s.fired ∧
    (runFrom cfg s es).state = Phase.notified := by
  induction es generalizing s with
  | nil => exact ⟨rfl, hs⟩
  | cons e es ih =>
    have h1 := step_notified cfg s e (hm e (by simp)) hs
    have h2 := ih (step cfg s e) (fun x hx => hm x (by simp [hx])) h1.2
    exact ⟨h2.1.trans h1.1, h2.2⟩

/-- Exhaustive case analysis of `onUserInput`. -/
theorem onUserInput_cases (s : WState) (d : Option (List Nat)) :
    onUserInput s d = (s, false) ∨
    (s.stopped = false ∧ isMeaningfulUserInput d = true ∧
      onUserInput s d =
        ({ s with userHasInteracted := true, state := Phase.idle,
                  hadOutput := false, idleTimer := none,
                  awaitingResponse := isSubmission d }, true)) := by
  unfold onUserInput
  by_cases h1 : s.stopped = true
  · rw [if_pos h1]
    exact Or.inl rfl
  · rw [if_neg h1]
    by_cases h2 : isMeaningfulUserInput d = false
    · rw [if_pos h2]
      exact Or.inl rfl
    · rw [if_neg h2]
      exact Or.inr ⟨by simpa using h1, by simpa using h2, rfl⟩

/-- Exhaustive case analysis of `stopW`. -/
theorem stopW_cases (s : WState) :
    (s.stopped = true ∧ stopW s = s) ∨
    stopW s = { s with stopped := true, idleTimer := none } := by
  unfold stopW
  by_cases h1 : s.stopped = true
  · rw [if_pos h1]
    exact Or.inl ⟨h1, rfl⟩
  · rw [if_neg h1]
    exact Or.inr rfl

/-- Exhaustive case analysis of `onTimerFire`: either a guarded no-op, or all
fire-time conditions held and the idle trigger ran. -/
theorem onTimerFire_cases (s : WState) (id : Nat) :
    onTimerFire s id = s ∨
    (s.stopped = false ∧ s.state = Phase.idle ∧ s.hadOutput = true ∧
      s.userHasInteracted = true ∧ s.awaitingResponse = true ∧
      onTimerFire s id = trigger Reason.idle s) := by
  unfold onTimerFire
  cases ht : s.idleTimer with
  | none => exact Or.inl rfl
  | some t =>
    simp only []
    by_cases h1 : t.id = id
    · rw [if_pos h1]
      by_cases h2 : s.stopped = true ∨ ¬ s.state = Phase.idle
      · rw [if_pos h2]
        exact Or.inl rfl
      · rw [if_neg h2]
        push_neg at h2
        by_cases h3 : s.hadOutput = false ∨ s.userHasInteracted = false ∨
            s.awaitingResponse = false
        · rw [if_pos h3]
          exact Or.inl rfl
        · rw [if_neg h3]
          push_neg at h3
          exact Or.inr ⟨by simpa using h2.1, h2.2, by simpa using h3.1,
            by simpa using h3.2.1, by simpa using h3.2.2, rfl⟩
    · rw [if_neg h1]
      exact Or.inl rfl

/-- Exhaustive case analysis of the `pty.onData` handler: a stopped no-op, a
pattern-match trigger (possible only while idle after interaction), or the
fall-through to the timer re-arm conditional. -/
theorem onData_cases (cfg : Config) (s : WState) (d : List Nat) :
    (s.stopped = true ∧ onData cfg s d = s) ∨
    (∃ r, s.stopped = false ∧ s.state = Phase.idle ∧
      s.userHasInteracted = true ∧
      onData cfg s d = trigger r (clearIdleTimer { s with hadOutput := true })) ∨
    onData cfg s d = maybeResetIdle cfg { s with hadOutput := true } := by
  simp only [onData]
  split
  · rename_i h1
    exact Or.inl ⟨h1, rfl⟩
  · rename_i h1
    split
    · rename_i h2
      split
      · exact Or.inr (Or.inl ⟨Reason.idle, by simpa using h1,
          by simpa using h2.1, by simpa using h2.2, rfl⟩)
      · split
        · exact Or.inr (Or.inl ⟨Reason.prompt, by simpa using h1,
            by simpa using h2.1, by simpa using h2.2, rfl⟩)
        · exact Or.inr (Or.inr rfl)
    · exact Or.inr (Or.inr rfl)

theorem trigger_fields (r : Reason) (s : WState) :
    (trigger r s).userHasInteracted = s.userHasInteracted ∧
    (trigger r s).idleTimer = s.idleTimer ∧
    (trigger r s).stopped = s.stopped ∧
    (trigger r s).hadOutput = s.hadOutput := by
  rcases trigger_cases r s with h | h <;> rw [h] <;> exact ⟨rfl, rfl, rfl, rfl⟩

theorem clearIdleTimer_fields (s : WState) :
    (clearIdleTimer s).state = s.state ∧ (clearIdleTimer s).stopped = s.stopped ∧
    (clearIdleTimer s).fired = s.fired ∧ (clearIdleTimer s).idleTimer = none :=
  ⟨rfl, rfl, rfl, rfl⟩

/-- If a step ends with `userHasInteracted` still false, it started that way
and no callback fired during it. -/
theorem step_no_interact (cfg : Config) (s : WState) (e : Event)
    (h : (step cfg s e).userHasInteracted = false) :
    s.userHasInteracted = false ∧ (step cfg s e).fired = s.fired := by
  cases e with
  | output d =>
    rcases onData_cases cfg s d with ⟨_, hq⟩ | ⟨r, _, _, hint, hq⟩ | hq <;>
        rw [show step cfg s (Event.output d) = onData cfg s d from rfl, hq] at h ⊢
    · exact ⟨h, rfl⟩
    · rw [(trigger_fields r _).1] at h
      exact absurd hint (by rw [show (clearIdleTimer { s with hadOutput := true }
        : WState).userHasInteracted = s.userHasInteracted from rfl] at h; rw [h]; decide)
    · rw [(maybeResetIdle_fields cfg _).2.2.2.1] at h
      exact ⟨h, (maybeResetIdle_fields cfg _).1⟩
  | userInput d =>
    rcases onUserInput_cases s d with hq | ⟨_, _, hq⟩ <;>
        rw [show step cfg s (Event.userInput d) = (onUserInput s d).1 from rfl, hq] at h ⊢
    · exact ⟨h, rfl⟩
    · exact absurd h (by simp)
  | timerFire id =>
    rcases onTimerFire_cases s id with hq | ⟨_, _, _, hint, _, hq⟩ <;>
        rw [show step cfg s (Event.timerFire id) = onTimerFire s id from rfl, hq] at h ⊢
    · exact ⟨h, rfl⟩
    · rw [(trigger_fields Reason.idle s).1] at h
      rw [h] at hint
      exact absurd hint (by decide)
  | stop =>
    rcases stopW_cases s with ⟨_, hq⟩ | hq <;>
        rw [show step cfg s Event.stop = stopW s from rfl, hq] at h ⊢ <;>
      exact ⟨h, rfl⟩

theorem runFrom_no_interact (cfg : Config) (s : WState) (es : List Event)
    (h : (runFrom cfg s es).userHasInteracted = false) :
    s.userHasInteracted = false ∧ (runFrom cfg s es).fired = s.fired := by
  induction es generalizing s with
  | nil => exact ⟨h, rfl⟩
  | cons e es ih =>
    have h0 : runFrom cfg s (e :: es) = runFrom cfg (step cfg s e) es := rfl
    rw [h0] at h ⊢
    have h1 := ih (step cfg s e) h
    have h2 := step_no_interact cfg s e h1.1
    exact ⟨h2.1, h1.2.trans h2.2⟩

/-- The `awaitingResponse`-implies-`Idle` property is preserved by every
step. -/
theorem step_awaiting_idle (cfg : Config) (s : WState) (e : Event)
    (h : s.awaitingResponse = true → s.state = Phase.idle)
    (ha : (step cfg s e).awaitingResponse = true) :
    (step cfg s e).state = Phase.idle := by
  cases e with
  | output d =>
    rcases onData_cases cfg s d with ⟨_, hq⟩ | ⟨r, hst, hid, _, hq⟩ | hq <;>
        rw [show step cfg s (Event.output d) = onData cfg s d from rfl, hq] at ha ⊢
    · exact h ha
    · have hu1 : (clearIdleTimer { s with hadOutput := true } : WState).stopped
          = false := hst
      have hu2 : ¬ (clearIdleTimer { s with hadOutput := true } : WState).state
          = Phase.notified := by
        show ¬ s.state = Phase.notified
        rw [hid]
        decide
      rw [trigger_fire _ _ hu1 hu2] at ha
      simp at ha
    · rw [(maybeResetIdle_fields cfg _).2.2.1] at ha
      rw [(maybeResetIdle_fields cfg _).2.1]
      exact h ha
  | userInput d =>
    rcases onUserInput_cases s d with hq | ⟨_, _, hq⟩ <;>
        rw [show step cfg s (Event.userInput d) = (onUserInput s d).1 from rfl, hq] at ha ⊢
    · exact h ha
  | timerFire id =>
    rcases onTimerFire_cases s id with hq | ⟨hst, hid, _, _, _, hq⟩ <;>
        rw [show step cfg s (Event.timerFire id) = onTimerFire s id from rfl, hq] at ha ⊢
    · exact h ha
    · rw [trigger_fire Reason.idle s hst (by rw [hid]; decide)] at ha
      simp at ha
  | stop =>
    rcases stopW_cases s with ⟨_, hq⟩ | hq <;>
        rw [show step cfg s Event.stop = stopW s from rfl, hq] at ha ⊢
    · exact h ha
    · exact h ha

theorem runFrom_awaiting_idle (cfg : Config) (s : WState) (es : List Event)
    (h : s.awaitingResponse = true → s.state = Phase.idle) :
    (runFrom cfg s es).awaitingResponse = true →
    (runFrom cfg s es).state = Phase.idle := by
  induction es generalizing s with
  | nil => exact h
  | cons e es ih => exact ih (step cfg s e) (step_awaiting_idle cfg s e h)

/-- With the silence trigger disabled, no step ever schedules a timer. -/
theorem step_timer_none (cfg : Config) (s : WState) (e : Event)
    (hE : cfg.enableIdle = false) (h : s.idleTimer = none) :
    (step cfg s e).idleTimer = none := by
  have hmr : ∀ u : WState, u.idleTimer = none →
      (maybeResetIdle cfg u).idleTimer = none := by
    intro u hu
    unfold maybeResetIdle
    rw [if_neg]
    · exact hu
    · intro hc
      rw [hE] at hc
      exact absurd hc.2.1 (by decide)
  cases e with
  | output d =>
    rcases onData_cases cfg s d with ⟨_, hq⟩ | ⟨r, _, _, _, hq⟩ | hq <;>
        rw [show step cfg s (Event.output d) = onData cfg s d from rfl, hq]
    · exact h
    · rw [(trigger_fields r _).2.1]
      rfl
    · exact hmr _ h
  | userInput d =>
    rcases onUserInput_cases s d with hq | ⟨_, _, hq⟩ <;>
        rw [show step cfg s (Event.userInput d) = (onUserInput s d).1 from rfl, hq]
    · exact h
  | timerFire id =>
    have : onTimerFire s id = s := by
      unfold onTimerFire
      rw [h]
    rw [show step cfg s (Event.timerFire id) = onTimerFire s id from rfl, this]
    exact h
  | stop =>
    rcases stopW_cases s with ⟨_, hq⟩ | hq <;>
        rw [show step cfg s Event.stop = stopW s from rfl, hq]
    · exact h

theorem runFrom_timer_none (cfg : Config) (s : WState) (es : List Event)
    (hE : cfg.enableIdle = false) (h : s.idleTimer = none) :
    (runFrom cfg s es).idleTimer = none := by
  induction es generalizing s with
  | nil => exact h
  | cons e es ih => exact ih (step cfg s e) (step_timer_none cfg s e hE h)

/-- A timer fire against an empty handle is a no-op (the `clearTimeout`
guarantee). -/
theorem onTimerFire_none (s : WState) (id : Nat) (h : s.idleTimer = none) :
    onTimerFire s id = s := by
  unfold onTimerFire
  rw [h]

/-- Any pending timer was scheduled by `resetIdle` with delay `cfg.idleMs`. -/
theorem step_timer_delay (cfg : Config) (s : WState) (e : Event)
    (h : ∀ t, s.idleTimer = some t → t.delay = cfg.idleMs) :
    ∀ t, (step cfg s e).idleTimer = some t → t.delay = cfg.idleMs := by
  have hmr : ∀ u : WState, u.idleTimer = s.idleTimer →
      ∀ t, (maybeResetIdle cfg u).idleTimer = some t → t.delay = cfg.idleMs := by
    intro u hu t ht
    rcases maybeResetIdle_eq cfg u with hh | hh <;> rw [hh] at ht
    · exact h t (hu ▸ ht)
    · unfold resetIdle at ht
      simp only [Option.some.injEq] at ht
      rw [← ht]
  cases e with
  | output d =>
    rcases onData_cases cfg s d with ⟨_, hq⟩ | ⟨r, _, _, _, hq⟩ | hq <;>
        rw [show step cfg s (Event.output d) = onData cfg s d from rfl, hq]
    · exact h
    · rw [(trigger_fields r _).2.1]
      intro t ht
      exact absurd ht (by simp [clearIdleTimer])
    · exact hmr _ rfl
  | userInput d =>
    rcases onUserInput_cases s d with hq | ⟨_, _, hq⟩ <;>
        rw [show step cfg s (Event.userInput d) = (onUserInput s d).1 from rfl, hq]
    · exact h
    · intro t ht
      exact absurd ht (by simp)
  | timerFire id =>
    rcases onTimerFire_cases s id with hq | ⟨_, _, _, _, _, hq⟩ <;>
        rw [show step cfg s (Event.timerFire id) = onTimerFire s id from rfl, hq]
    · exact h
    · rw [(trigger_fields Reason.idle s).2.1]
      exact h
  | stop =>
    rcases stopW_cases s with ⟨_, hq⟩ | hq <;>
        rw [show step cfg s Event.stop = stopW s from rfl, hq]
    · exact h
    · intro t ht
      exact absurd ht (by simp)

theorem runFrom_timer_delay (cfg : Config) (s : WState) (es : List Event)
    (h : ∀ t, s.idleTimer = some t → t.delay = cfg.idleMs) :
    ∀ t, (runFrom cfg s es).idleTimer = some t → t.delay = cfg.idleMs := by
  induction es generalizing s with
  | nil => exact h
  | cons e es ih => exact ih (step cfg s e) (step_timer_delay cfg s e h)

theorem onUserInput_fst_fired (s : WState) (d : Option (List Nat)) :
    ((onUserInput s d).1).fired = s.fired := by
  rcases onUserInput_cases s d with hq | ⟨_, _, hq⟩ <;> rw [hq]

theorem stopW_fired (s : WState) : (stopW s).fired = s.fired := by
  rcases stopW_cases s with ⟨_, hq⟩ | hq <;> rw [hq]

/-- A step on anything but a meaningful user input cannot set
`userHasInteracted`. -/
theorem step_interact_forward (cfg : Config) (s : WState) (e : Event)
    (hm : isMeaningfulInputEvent e = false) (h : s.userHasInteracted = false) :
    (step cfg s e).userHasInteracted = false := by
  cases e with
  | output d =>
    rcases onData_cases cfg s d with ⟨_, hq⟩ | ⟨r, _, _, hint, hq⟩ | hq <;>
        rw [show step cfg s (Event.output d) = onData cfg s d from rfl, hq]
    · exact h
    · rw [hint] at h
      exact absurd h (by decide)
    · rw [(maybeResetIdle_fields cfg _).2.2.2.1]
      exact h
  | userInput d =>
    rcases onUserInput_cases s d with hq | ⟨_, hme, hq⟩ <;>
        rw [show step cfg s (Event.userInput d) = (onUserInput s d).1 from rfl, hq]
    · exact h
    · rw [show isMeaningfulInputEvent (Event.userInput d)
          = isMeaningfulUserInput d from rfl, hme] at hm
      exact absurd hm (by decide)
  | timerFire id =>
    rcases onTimerFire_cases s id with hq | ⟨_, _, _, hint, _, hq⟩ <;>
        rw [show step cfg s (Event.timerFire id) = onTimerFire s id from rfl, hq]
    · exact h
    · rw [hint] at h
      exact absurd h (by decide)
  | stop =>
    rcases stopW_cases s with ⟨_, hq⟩ | hq <;>
        rw [show step cfg s Event.stop = stopW s from rfl, hq] <;> exact h

theorem runFrom_interact_forward (cfg : Config) (s : WState) (es : List Event)
    (hm : ∀ e ∈ es, isMeaningfulInputEvent e = false)
    (h : s.userHasInteracted = false) :
    (runFrom cfg s es).userHasInteracted = false := by
  induction es generalizing s with
  | nil => exact h
  | cons e es ih =>
    exact ih (step cfg s e) (fun x hx => hm x (by simp [hx]))
      (step_interact_forward cfg s e (hm e (by simp)) h)

/-! ## Demonstration configurations, states and traces

The literal `[104, 105]` is `hi`, `[119]` is `w`, `[97]` is `a`, `[13]` is a
carriage return, `[27]` is ESC, and `[40, 121, 47, 110, 41]` is `(y/n)`. -/

/-- `watch` invoked with no options. -/
def demoConfig : Config := watchConfig {}

/-- `watch` invoked with `enableIdle: false`. -/
def noIdleConfig : Config := watchConfig { enableIdle := some false }

/-- `watch` invoked with `promptPatterns: []`. -/
def emptyPatConfig : Config := watchConfig { promptPatterns := some [] }

/-- A watcher that has armed its silence timer: the state reached from
`initState` after a submitted input and one quiet output chunk. -/
def armedState : WState :=
  { state := Phase.idle, idleTimer := some ⟨0, 4000⟩, nextTimer := 1,
    hadOutput := true, userHasInteracted := true, awaitingResponse := true,
    stopped := false, fired := [] }

/-- The codes of the `? for shortcuts` hint line. -/
def shortcutsHint : List Nat :=
  [63, 32, 102, 111, 114, 32, 115, 104, 111, 114, 116, 99, 117, 116, 115]

/-! ## Claims -/

/-- C1: for every sequence of output chunks, timer firings and user inputs
containing no meaningful user input, the trigger callback is invoked at most
once; hence, over a full trace, it fires at most once between two consecutive
meaningful user inputs, and at most once before the first one.  In
particular, once a pattern match has fired, an idle-timer firing in the same
arm cycle is absorbed by the `NOTIFIED` guard (and vice versa). -/
theorem claim1_at_most_one_trigger (cfg : Config) (s : WState)
    (es : List Event) (h : ∀ e ∈ es, isMeaningfulInputEvent e = false) :
    ((runFrom cfg s es).fired).length ≤ s.fired.length + 1 := by
  induction es generalizing s with
  | nil => exact Nat.le_succ _
  | cons e es ih =>
    have h0 : runFrom cfg s (e :: es) = runFrom cfg (step cfg s e) es := rfl
    rw [h0]
    rcases step_fired_cases cfg s e with hc | ⟨r, hf, hn⟩
    · have := ih (step cfg s e) (fun x hx => h x (by simp [hx]))
      rw [hc] at this
      exact this
    · have habs := runFrom_notified cfg (step cfg s e) es
        (fun x hx => h x (by simp [hx])) hn
      rw [habs.1, hf]
      simp

/-- Witness for C1 at a concrete trace: an output chunk followed by a timer
firing, with no meaningful input in between. -/
theorem claim1_witness :
    ((runFrom demoConfig initState
        [Event.output [104, 105], Event.timerFire 0]).fired).length ≤
      initState.fired.length + 1 :=
  claim1_at_most_one_trigger demoConfig initState
    [Event.output [104, 105], Event.timerFire 0] (by decide)

/-- C2 counterexample: a chunk consisting of a bare backspace (BS 8, or DEL
127 as terminals commonly send it) is classified as NOT meaningful, whereas
the claim asserts that backspace yields `meaningful = true`. -/
theorem claim2_counterexample :
    isMeaningfulUserInput (some [8]) = false ∧
    isMeaningfulUserInput (some [127]) = false := by decide

/-- C2 (amended): `meaningful` is true iff some character remains after
stripping focus events, then the other ANSI escapes, then the remaining
control bytes other than CR and LF; a lone ESC, an arrow-key sequence
(ESC `[` `A`), and focus events yield false; printable characters and CR/LF
yield true; absent input is meaningful; but backspace bytes (BS 8 and DEL
127) are stripped as control bytes, so a bare backspace is NOT meaningful. -/
theorem claim2_classifier :
    (∀ d : List Nat, isMeaningfulUserInput (some d) =
        decide (0 < ((stripAnsi (stripFocus d)).filter
          (fun c => !(isStrippedControl c))).length)) ∧
    isMeaningfulUserInput none = true ∧
    isMeaningfulUserInput (some [27]) = false ∧
    isMeaningfulUserInput (some [27, 91, 65]) = false ∧
    isMeaningfulUserInput (some [27, 91, 73]) = false ∧
    isMeaningfulUserInput (some [27, 91, 79]) = false ∧
    isMeaningfulUserInput (some [97]) = true ∧
    isMeaningfulUserInput (some [13]) = true ∧
    isMeaningfulUserInput (some [10]) = true ∧
    isMeaningfulUserInput (some [8]) = false ∧
    isMeaningfulUserInput (some [127]) = false := by
  refine ⟨fun d => ?_, by decide, by decide, by decide, by decide, by decide,
    by decide, by decide, by decide, by decide, by decide⟩
  by_cases hd : d.length = 0
  · have hnil : d = [] := List.eq_nil_of_length_eq_zero hd
    subst hnil
    rfl
  · simp only [isMeaningfulUserInput]
    rw [if_neg hd]

/-- C3: `onUserInput` returns false and leaves the state untouched when
stopped or when the input is not meaningful; otherwise it records the
interaction, re-enters `Idle`, resets `hadOutput`, cancels the timer, sets
`awaitingResponse` exactly when the raw data contains CR or LF, and returns
true. -/
theorem claim3_onUserInput (s : WState) (d : Option (List Nat)) :
    (s.stopped = true → onUserInput s d = (s, false)) ∧
    (isMeaningfulUserInput d = false → onUserInput s d = (s, false)) ∧
    (s.stopped = false → isMeaningfulUserInput d = true →
      onUserInput s d =
        ({ s with userHasInteracted := true, state := Phase.idle,
                  hadOutput := false, idleTimer := none,
                  awaitingResponse := isSubmission d }, true)) := by
  refine ⟨fun h1 => ?_, fun h2 => ?_, fun h1 h2 => ?_⟩
  · unfold onUserInput
    rw [if_pos h1]
  · unfold onUserInput
    by_cases h1 : s.stopped = true
    · rw [if_pos h1]
    · rw [if_neg h1, if_pos h2]
  · unfold onUserInput
    rw [if_neg (by simp [h1]), if_neg (by simp [h2])]

/-- Witness for C3: a printable character followed by a carriage return
re-arms the watcher and records a submission. -/
theorem claim3_witness :
    onUserInput initState (some [97, 13]) =
      ({ initState with userHasInteracted := true, state := Phase.idle,
                        hadOutput := false, idleTimer := none,
                        awaitingResponse := isSubmission (some [97, 13]) },
        true) :=
  (claim3_onUserInput initState (some [97, 13])).2.2 rfl (by decide)

/-- C4: when the pending idle timer fires, it is a strict no-op if at fire
time the watcher is stopped, the phase is not `Idle`, or any of `hadOutput`,
`userHasInteracted`, `awaitingResponse` is false; with all guards passing at
fire time it fires a trigger with reason `idle`. -/
theorem claim4_timer_fire (cfg : Config) (s : WState) (t : TimerH) (id : Nat)
    (hp : s.idleTimer = some t) (hid : t.id = id) :
    ((s.stopped = true ∨ ¬ s.state = Phase.idle ∨ s.hadOutput = false ∨
        s.userHasInteracted = false ∨ s.awaitingResponse = false) →
      step cfg s (Event.timerFire id) = s) ∧
    (s.stopped = false → s.state = Phase.idle → s.hadOutput = true →
      s.userHasInteracted = true → s.awaitingResponse = true →
      step cfg s (Event.timerFire id) =
        { s with awaitingResponse := false, state := Phase.notified,
                 fired := s.fired ++ [Reason.idle] }) := by
  constructor
  · intro hno
    rcases onTimerFire_cases s id with hq | ⟨c1, c2, c3, c4, c5, _⟩
    · exact hq
    · exfalso
      rcases hno with hx | hx | hx | hx | hx
      · rw [c1] at hx
        exact absurd hx (by decide)
      · exact hx c2
      · rw [c3] at hx
        exact absurd hx (by decide)
      · rw [c4] at hx
        exact absurd hx (by decide)
      · rw [c5] at hx
        exact absurd hx (by decide)
  · intro h1 h2 h3 h4 h5
    have hfire : onTimerFire s id = trigger Reason.idle s := by
      unfold onTimerFire
      rw [hp]
      simp only []
      rw [if_pos hid, if_neg (by simp [h1, h2]),
        if_neg (by simp [h3, h4, h5])]
    show onTimerFire s id = _
    rw [hfire]
    exact trigger_fire Reason.idle s h1 (by rw [h2]; decide)

/-- Witness for C4: from an armed state with all guards true, the timer
firing appends exactly one `idle` reason. -/
theorem claim4_witness :
    step demoConfig armedState (Event.timerFire 0) =
      { armedState with awaitingResponse := false, state := Phase.notified,
                        fired := armedState.fired ++ [Reason.idle] } :=
  (claim4_timer_fire demoConfig armedState ⟨0, 4000⟩ 0 rfl rfl).2
    rfl rfl rfl rfl rfl

/-- C5 counterexample: with `enableIdle = false`, a submitted input followed
by an output chunk containing the `? for shortcuts` hint makes the
`CLAUDE_IDLE_PATTERNS` branch fire a trigger with reason `idle`, whereas the
claim asserts that only `promptPatterns` matches (reason `prompt`) can ever
fire and that no `idle`-reason trigger occurs. -/
theorem claim5_counterexample :
    (run noIdleConfig
        [Event.userInput (some [13]), Event.output shortcutsHint]).fired =
      [Reason.idle] := by decide

/-- C5 (amended): with `enableIdle = false` no timer is ever pending, so
pure silence (timer firings) never triggers and is a strict no-op, and no
non-output event ever changes the callback trace: every trigger is fired
while processing an output chunk — by a `promptPatterns` match (reason
`prompt`) or by a built-in `CLAUDE_IDLE_PATTERNS` match (reason `idle`). -/
theorem claim5_no_silence_trigger (cfg : Config)
    (hE : cfg.enableIdle = false) (es : List Event) :
    (run cfg es).idleTimer = none ∧
    (∀ id, step cfg (run cfg es) (Event.timerFire id) = run cfg es) ∧
    (∀ d, (step cfg (run cfg es) (Event.userInput d)).fired =
      (run cfg es).fired) ∧
    (step cfg (run cfg es) Event.stop).fired = (run cfg es).fired := by
  have h1 : (run cfg es).idleTimer = none :=
    runFrom_timer_none cfg initState es hE rfl
  exact ⟨h1, fun id => onTimerFire_none _ id h1,
    fun d => onUserInput_fst_fired _ d, stopW_fired _⟩

/-- Witness for C5 at a concrete configuration and trace. -/
theorem claim5_witness :
    (run noIdleConfig [Event.userInput (some [13]),
        Event.output [119]]).idleTimer = none :=
  (claim5_no_silence_trigger noIdleConfig rfl
    [Event.userInput (some [13]), Event.output [119]]).1

/-- C6: `stop` is idempotent, and after it returns the watcher is inert: any
subsequent sequence of output chunks, user inputs, timer firings and further
stops leaves the state (including the callback trace) exactly unchanged. -/
theorem claim6_stop (cfg : Config) (s : WState) (es : List Event) :
    step cfg (step cfg s Event.stop) Event.stop = step cfg s Event.stop ∧
    runFrom cfg (step cfg s Event.stop) es = step cfg s Event.stop := by
  have hs : (stopW s).stopped = true := by
    rcases stopW_cases s with ⟨h1, hq⟩ | hq
    · rw [hq]
      exact h1
    · rw [hq]
  exact ⟨step_stopped cfg _ Event.stop hs, runFrom_stopped cfg _ es hs⟩

/-- C7 counterexample: `Number.isFinite(0)` holds, so `watch` uses an
`idleMs` of zero rather than the default 4000 the claim requires for
non-positive values; likewise for negative finite values. -/
theorem claim7_counterexample :
    resolveIdleMs (JsNum.fin 0) = 0 ∧
    ¬ resolveIdleMs (JsNum.fin 0) = DEFAULT_IDLE_MS ∧
    resolveIdleMs (JsNum.fin (-100)) = -100 := by decide

/-- C7 (amended): the resolved idle duration equals `config.idleMs` for
EVERY finite value (positive, zero or negative), and equals the default 4000
exactly when the option is absent, non-numeric, `NaN` or infinite; moreover
every timer ever pending in a reachable state carries the resolved delay. -/
theorem claim7_idleMs_resolution :
    (∀ v : Int, resolveIdleMs (JsNum.fin v) = v) ∧
    resolveIdleMs JsNum.undef = DEFAULT_IDLE_MS ∧
    resolveIdleMs JsNum.nan = DEFAULT_IDLE_MS ∧
    resolveIdleMs JsNum.inf = DEFAULT_IDLE_MS ∧
    resolveIdleMs JsNum.negInf = DEFAULT_IDLE_MS ∧
    (∀ (cfg : Config) (es : List Event) (t : TimerH),
      (run cfg es).idleTimer = some t → t.delay = cfg.idleMs) := by
  refine ⟨fun v => rfl, rfl, rfl, rfl, rfl, fun cfg es t ht => ?_⟩
  exact runFrom_timer_delay cfg initState es
    (fun u hu => by simp [initState] at hu) t ht

/-- Witness for C7: the timer scheduled after a submission and an output
chunk carries the default delay. -/
theorem claim7_witness :
    (⟨0, (4000 : Int)⟩ : TimerH).delay = demoConfig.idleMs :=
  claim7_idleMs_resolution.2.2.2.2.2 demoConfig
    [Event.userInput (some [13]), Event.output [119]] ⟨0, 4000⟩ (by decide)

/-- C8: if no meaningful user input was ever delivered, no amount of output
and no timer firing produces a trigger; equivalently, in every reachable
state `userHasInteracted = false` implies an empty callback trace. -/
theorem claim8_no_trigger_before_interaction (cfg : Config)
    (es : List Event) :
    ((∀ e ∈ es, isMeaningfulInputEvent e = false) → (run cfg es).fired = []) ∧
    ((run cfg es).userHasInteracted = false → (run cfg es).fired = []) := by
  have main : (run cfg es).userHasInteracted = false →
      (run cfg es).fired = [] := by
    intro h
    exact (runFrom_no_interact cfg initState es h).2
  exact ⟨fun hm => main (runFrom_interact_forward cfg initState es hm rfl),
    main⟩

/-- Witness for C8: a prompt-looking output chunk and a timer firing with no
prior input produce no trigger. -/
theorem claim8_witness :
    (run demoConfig [Event.output [40, 121, 47, 110, 41],
        Event.timerFire 0]).fired = [] :=
  (claim8_no_trigger_before_interaction demoConfig
    [Event.output [40, 121, 47, 110, 41], Event.timerFire 0]).1 (by decide)

/-- C9 counterexample: after a submission (`CR`), the arrival of a further
user-input chunk consisting of a bare ESC leaves `awaitingResponse` still
true, whereas the claim asserts every arrival of new user input sets it to
false. -/
theorem claim9_counterexample :
    (run demoConfig [Event.userInput (some [13]),
        Event.userInput (some [27])]).awaitingResponse = true := by decide

/-- C9 (amended): in every reachable state `awaitingResponse = true` implies
`phase = Idle`; `awaitingResponse` is cleared by every trigger that actually
fires; a meaningful user input re-arms with `awaitingResponse` equal to its
submission flag (so a submission SETS it); and a non-meaningful input leaves
the whole state, `awaitingResponse` included, unchanged. -/
theorem claim9_awaiting (cfg : Config) :
    (∀ es, (run cfg es).awaitingResponse = true →
      (run cfg es).state = Phase.idle) ∧
    (∀ (r : Reason) (s : WState), s.stopped = false →
      ¬ s.state = Phase.notified → (trigger r s).awaitingResponse = false) ∧
    (∀ (s : WState) (d : Option (List Nat)), s.stopped = false →
      isMeaningfulUserInput d = true →
      ((onUserInput s d).1).awaitingResponse = isSubmission d) ∧
    (∀ (s : WState) (d : Option (List Nat)),
      isMeaningfulUserInput d = false → (onUserInput s d).1 = s) := by
  refine ⟨fun es => runFrom_awaiting_idle cfg initState es
      (fun h => absurd h (by decide)),
    fun r s h1 h2 => by rw [trigger_fire r s h1 h2],
    fun s d h1 h2 => by
      unfold onUserInput
      rw [if_neg (by simp [h1]), if_neg (by simp [h2])],
    fun s d h => by
      unfold onUserInput
      by_cases h1 : s.stopped = true
      · rw [if_pos h1]
      · rw [if_neg h1, if_pos h]⟩

/-- Witness for C9: the reachable-state invariant at a concrete trace in
which `awaitingResponse` is true. -/
theorem claim9_witness :
    (run demoConfig [Event.userInput (some [13])]).state = Phase.idle :=
  (claim9_awaiting demoConfig).1 [Event.userInput (some [13])] (by decide)

/-- C10: an absent, non-array or empty `promptPatterns` option falls back to
the built-in `PROMPT_PATTERNS` (six case-insensitive tests); in particular an
empty pattern list does not disable prompt detection: with
`promptPatterns: []`, an armed watcher still fires reason `prompt` on an
output chunk containing `(y/n)`. -/
theorem claim10_default_patterns :
    resolvePromptPatterns none = PROMPT_PATTERNS ∧
    resolvePromptPatterns (some []) = PROMPT_PATTERNS ∧
    (∀ ps : List Pat, 0 < ps.length → resolvePromptPatterns (some ps) = ps) ∧
    PROMPT_PATTERNS.length = 6 ∧
    emptyPatConfig.promptPatterns = PROMPT_PATTERNS ∧
    (PROMPT_PATTERNS.any fun p => p [40, 89, 47, 78, 41]) = true ∧
    (run emptyPatConfig [Event.userInput (some [97]),
        Event.output [40, 121, 47, 110, 41]]).fired = [Reason.prompt] := by
  refine ⟨rfl, rfl, fun ps hp => ?_, rfl, rfl, by decide, by decide⟩
  simp only [resolvePromptPatterns]
  rw [if_pos hp]

/-- Witness for C10: a concrete non-empty custom pattern list is kept
as-is. -/
theorem claim10_witness :
    resolvePromptPatterns (some PROMPT_PATTERNS) = PROMPT_PATTERNS :=
  claim10_default_patterns.2.2.1 PROMPT_PATTERNS (by decide)

end Blooop
